import Mathlib

/-!
Verification of the upsert-conflict-resolution and statement-construction
engine of `postgraphile-upsert`, shallowly embedded from the resolver in
`src/postgraphile-upsert.ts` (the current combined-plugins version of the
plugin).  External collaborators are modelled at their boundary:

* GraphQL inflection (`inflection.camelCase`, `inflection.column`,
  `inflection.upsertIgnoreColumnEnum`) is an injective renaming applied
  uniformly to the request keys and the attribute names; it is modelled as
  the identity, i.e. request keys are taken in the same namespace as
  `attr.name`.
* `gql2pg(val, type, typeModifier)` is an opaque value coercion, modelled
  as the constructor of a `PgValue` record.
* The `pg-sql2` fragment library is rendered to a flat statement string:
  `sql.identifier` double-quotes (doubling embedded quotes), `sql.join`
  intercalates, and bound values become positional placeholders `$1 ...`
  in push order.  Template-literal whitespace is normalised to single
  spaces.
* The introspection catalog supplies the relation's attributes as a list
  in declared (attnum) order and the unique/primary constraints in
  catalog-declared order; PostgreSQL constraint names are unique per
  schema, so the JS name-keyed object over constraints is modelled as the
  name-tagged list in the same order.
-/

namespace Upsert

/-- A GraphQL scalar value as it reaches the resolver: JavaScript has a
single number type, so numeric literals such as `0.0` and `0` denote the
same `num` value. -/
inductive Value where
  | str (s : String)
  | num (q : Rat)
  | bool (b : Bool)
  | null
  deriving Repr, DecidableEq

/-- JavaScript strict equality `===` restricted to the scalar values the
resolver compares (`whereClauseValue !== val` in the source). -/
def strictEq : Value → Value → Bool
  | Value.str a, Value.str b => a == b
  | Value.num a, Value.num b => a == b
  | Value.bool a, Value.bool b => a == b
  | Value.null, Value.null => true
  | _, _ => false

/-- A JS object mapping column names to scalar values (`where`, `input`);
object keys are unique, lookup returns the first binding. -/
abbrev VMap := List (String × Value)

/-- Property read `m[k]` guarded by `hasOwnProperty`. -/
def lookupV (m : VMap) (k : String) : Option Value :=
  (m.find? (fun p => p.1 == k)).map Prod.snd

/-- `Object.prototype.hasOwnProperty.call(m, k)` / `k in m`. -/
def hasKeyV (m : VMap) (k : String) : Bool :=
  (lookupV m k).isSome

/-- One introspected column of the relation, with the `pgOmit` capability
answers the engine consumes (`omit(attr, "update")`,
`omit(attr, "updateOnConflict")`). -/
structure Attribute where
  name : String
  num : Nat
  typeId : String
  typeModifier : Int
  omitUpdate : Bool
  omitUpdateOnConflict : Bool
  deriving Repr, DecidableEq

/-- Constraint kind: `con.type === "u" || con.type === "p"`. -/
inductive ConstraintType where
  | unique
  | primary
  deriving Repr, DecidableEq

/-- One unique or primary-key constraint of the relation. -/
structure Constraint where
  name : String
  ctype : ConstraintType
  keyAttributeNums : List Nat
  deriving Repr, DecidableEq

/-- Relation identity (`table.namespace.name`, `table.name`). -/
structure PgTable where
  namespaceName : String
  name : String
  deriving Repr, DecidableEq

/-- Result of `gql2pg(val, attr.type, attr.typeModifier)`: an opaque
coerced parameter value. -/
structure PgValue where
  val : Value
  typeId : String
  typeModifier : Int
  deriving Repr, DecidableEq

/-- `gql2pg` boundary: pairs the scalar with the column's type tokens. -/
def gql2pg (v : Value) (t : String) (m : Int) : PgValue := ⟨v, t, m⟩

/-- The three local failure exits of the resolver (each a thrown `Error`
in the source, distinguished here by which `throw` produced it). -/
inductive UpsertError where
  | valueMismatch (msg : String)
  | noMatchingConstraint (msg : String)
  | catalogFault (msg : String)
  deriving Repr, DecidableEq

/-- `attributes.find((attr) => attr.num === num)`. -/
def findAttrByNum (attrs : List Attribute) (n : Nat) : Option Attribute :=
  attrs.find? (fun a => a.num == n)

/-- `constraint.keyAttributeNums.map(...)` with
`assert(match, ...)`: `none` is the failed assertion (catalog fault). -/
def constraintColumns (attrs : List Attribute) (c : Constraint) :
    Option (List Attribute) :=
  c.keyAttributeNums.mapM (findAttrByNum attrs)

/-- `columnsByConstraintName`: the name-keyed map of resolved member
columns, kept in catalog-declared constraint order (JS object insertion
order; constraint names are unique per schema). -/
def columnsByConstraintName (attrs : List Attribute) (cons : List Constraint) :
    Option (List (String × List Attribute)) :=
  cons.mapM (fun c => (constraintColumns attrs c).map (fun cols => (c.name, cols)))

/-- `[...columns].every((col) => camelCase(col.name) in where)`. -/
def coveredByWhere (w : VMap) (cols : List Attribute) : Bool :=
  cols.all (fun col => hasKeyV w col.name)

/-- `[...columns].every((col) => inputDataKeys.has(camelCase(col.name)))`. -/
def coveredByInput (ks : List String) (cols : List Attribute) : Bool :=
  cols.all (fun col => ks.contains col.name)

/-- The conflict-target scan: `where ? find(...) : find(...) ?? find(pk)`.
A supplied `where` object is truthy in JS even when it has no keys, so
`whereMap = some w` takes the first branch for every `w`, including `[]`;
`none` models an absent/null `where`. -/
def matchingConstraint (entries : List (String × List Attribute))
    (pk : Option Constraint) (whereMap : Option VMap) (inputKeys : List String) :
    Option (String × List Attribute) :=
  match whereMap with
  | some w => entries.find? (fun e => coveredByWhere w e.2)
  | none =>
      match entries.find? (fun e => coveredByInput inputKeys e.2) with
      | some e => some e
      | none =>
          match pk with
          | some p => entries.find? (fun e => e.1 == p.name)
          | none => none

/-- The condition under which `ignoreUpdate.add(attr.name)` runs:
`omit(attr, "update") || omit(attr, "updateOnConflict") ||
ignoreArg.has(upsertIgnoreColumnEnum(attr))`. -/
def ignoreExcluded (ignoreArg : List String) (attr : Attribute) : Bool :=
  attr.omitUpdate || attr.omitUpdateOnConflict || ignoreArg.contains attr.name

/-- The exact diagnostic thrown on a where/input disagreement. -/
def mismatchMessage (fieldName : String) : String :=
  "Value passed in the input for " ++ fieldName ++
    " does not match the where clause value."

/-- The `attributes.forEach` reconciliation loop: builds `sqlColumns`,
`sqlValues` and the `ignoreUpdate` set in attribute-list order, throwing
at the first column present in both `where` and `input` with strictly
unequal values. -/
def resolveColumns (whereMap : Option VMap) (inputData : VMap)
    (ignoreArg : List String) :
    List Attribute → Except UpsertError (List String × List PgValue × List String)
  | [] => Except.ok ([], [], [])
  | attr :: rest =>
      let whereVal : Option Value := whereMap.bind (fun w => lookupV w attr.name)
      let igHere : List String :=
        if ignoreExcluded ignoreArg attr then [attr.name] else []
      match lookupV inputData attr.name, whereVal with
      | some v, some wv =>
          if strictEq wv v then
            (resolveColumns whereMap inputData ignoreArg rest).map
              (fun r => (attr.name :: r.1,
                gql2pg v attr.typeId attr.typeModifier :: r.2.1, igHere ++ r.2.2))
          else
            Except.error (UpsertError.valueMismatch (mismatchMessage attr.name))
      | some v, none =>
          (resolveColumns whereMap inputData ignoreArg rest).map
            (fun r => (attr.name :: r.1,
              gql2pg v attr.typeId attr.typeModifier :: r.2.1, igHere ++ r.2.2))
      | none, some wv =>
          (resolveColumns whereMap inputData ignoreArg rest).map
            (fun r => (attr.name :: r.1,
              gql2pg wv attr.typeId attr.typeModifier :: r.2.1, igHere ++ r.2.2))
      | none, none =>
          (resolveColumns whereMap inputData ignoreArg rest).map
            (fun r => (r.1, r.2.1, igHere ++ r.2.2))

/-- Character-level quote doubling used by identifier quoting. -/
def escapeQuotes (s : String) : String :=
  ⟨s.data.foldr (fun c acc => if c = '"' then '"' :: '"' :: acc else c :: acc) []⟩

/-- `sql.identifier(s)`: double-quoted identifier with embedded quotes
doubled. -/
def quoteIdent (s : String) : String :=
  "\"" ++ escapeQuotes s ++ "\""

/-- `sql.join(frags, ", ")`. -/
def joinComma (xs : List String) : String :=
  String.intercalate ", " xs

/-- Rendered positional parameter placeholders for the pushed values. -/
def placeholders (n : Nat) : List String :=
  (List.range n).map (fun i => "$" ++ toString (i + 1))

/-- `conflictUpdateArray`: assignments `"col" = excluded."col"` for every
inserted column not in the `ignoreUpdate` set. -/
def conflictUpdateArray (sqlColumns : List String) (ignoreUpdate : List String) :
    List String :=
  (sqlColumns.filter (fun c => !(ignoreUpdate.contains c))).map
    (fun c => quoteIdent c ++ " = excluded." ++ quoteIdent c)

/-- `mutationQuery`: the rendered statement text.  The branch is chosen by
`sqlColumns.length` truthiness; the parameter count equals the number of
pushed values. -/
def mutationQuery (ns tbl : String) (sqlColumns : List String) (nValues : Nat)
    (constraintName : String) (conflictUpdates : List String) : String :=
  "insert into " ++ quoteIdent ns ++ "." ++ quoteIdent tbl ++ " " ++
    (if sqlColumns.length != 0 then
      "(" ++ joinComma (sqlColumns.map quoteIdent) ++ ") values (" ++
        joinComma (placeholders nValues) ++ ") on conflict on constraint " ++
        quoteIdent constraintName ++ " do update set " ++
        joinComma conflictUpdates
    else "default values") ++ " returning *"

/-- The upsert request as it reaches the resolver: `whereMap = none`
models an absent or null `where`; `ignoreArg` is the (possibly absent)
list of ignore-enum values. -/
structure UpsertRequest where
  whereMap : Option VMap
  inputData : VMap
  ignoreArg : Option (List String)
  deriving Repr

/-- The diagnostic of the `NoMatchingConstraint` throw. -/
def noConstraintMessage (inputKeys : List String) : String :=
  "Unable to determine upsert unique constraint for given upserted columns: " ++
    joinComma inputKeys

/-- The straight-line resolver pipeline: resolve the constraint columns,
pick the conflict target, reconcile columns/values, render the statement.
Returns the statement text plus the ordered parameter list. -/
def upsertStatement (table : PgTable) (uniqueConstraints : List Constraint)
    (attributes : List Attribute) (req : UpsertRequest) :
    Except UpsertError (String × List PgValue) :=
  match columnsByConstraintName attributes uniqueConstraints with
  | none =>
      Except.error (UpsertError.catalogFault "no attribute found for constraint key")
  | some entries =>
      let pk := uniqueConstraints.find? (fun c => c.ctype == ConstraintType.primary)
      let inputKeys := req.inputData.map Prod.fst
      match matchingConstraint entries pk req.whereMap inputKeys with
      | none =>
          Except.error (UpsertError.noMatchingConstraint
            (noConstraintMessage inputKeys))
      | some mc =>
          match resolveColumns req.whereMap req.inputData
              (req.ignoreArg.getD []) attributes with
          | Except.error e => Except.error e
          | Except.ok (cs, vs, ig) =>
              Except.ok
                (mutationQuery table.namespaceName table.name cs vs.length mc.1
                  (conflictUpdateArray cs ig), vs)

end Upsert

namespace Upsert

/-! ### Helper lemmas -/

theorem find_append_first {α : Type} (p : α → Bool) :
    ∀ (pre : List α) (e : α) (post : List α),
      (∀ x ∈ pre, p x = false) → p e = true →
      (pre ++ e :: post).find? p = some e := by
  intro pre
  induction pre with
  | nil =>
      intro e post _ he
      simp [List.find?_cons_of_pos, he]
  | cons x xs ih =>
      intro e post hpre he
      have hx : p x = false := hpre x (List.mem_cons_self x xs)
      have hrest := ih e post (fun y hy => hpre y (List.mem_cons_of_mem x hy)) he
      simp [List.find?_cons_of_neg, hx, hrest]

theorem except_map_ok {ε α β : Type} (f : α → β) (e : Except ε α) (b : β)
    (h : e.map f = Except.ok b) : ∃ a, e = Except.ok a ∧ b = f a := by
  cases e with
  | error err => simp [Except.map] at h
  | ok a => exact ⟨a, rfl, by simpa [Except.map] using h.symm⟩

end Upsert

namespace Upsert

/-! ### C1: zero-assignment conflict-update clause -/

set_option maxRecDepth 8000 in
/-- C1: the claim states that when the reconciled insert list is non-empty
but every inserted column is update-excluded, the builder emits
`ON CONFLICT ... DO NOTHING` and never a zero-assignment `DO UPDATE SET`.
The source has no `do nothing` branch at all: on the relation
`public.t` with the single column `a` carrying `omit(update)` and the
input `a := "x"`, the pipeline succeeds and renders
`... do update set  returning *` — a `DO UPDATE SET` clause with zero
assignments (invalid SQL) and no `DO NOTHING`. -/
theorem c1_zero_assignment_update_set :
    upsertStatement ⟨"public", "t"⟩ [⟨"t_pkey", ConstraintType.primary, [1]⟩]
        [⟨"a", 1, "text", -1, true, false⟩] ⟨none, [("a", Value.str "x")], none⟩ =
      Except.ok
        ("insert into \"public\".\"t\" (\"a\") values ($1) on conflict on constraint \"t_pkey\" do update set  returning *",
          [gql2pg (Value.str "x") "text" (-1)]) ∧
    (("do update set").data.IsInfix
      ("insert into \"public\".\"t\" (\"a\") values ($1) on conflict on constraint \"t_pkey\" do update set  returning *").data) ∧
    ¬ (("do nothing").data.IsInfix
      ("insert into \"public\".\"t\" (\"a\") values ($1) on conflict on constraint \"t_pkey\" do update set  returning *").data) := by
  refine ⟨by rfl, by decide, by decide⟩

end Upsert

namespace Upsert

/-! ### C8: default-values statement and RETURNING * -/

theorem mutationQuery_returning (ns tbl : String) (cols : List String)
    (n : Nat) (cn : String) (cu : List String) :
    ∃ body, mutationQuery ns tbl cols n cn cu = body ++ " returning *" :=
  ⟨_, rfl⟩

/-- C8: with an empty reconciled insert list the rendered statement is
exactly `insert into "<ns>"."<tbl>" default values returning *` — no
column list, no `values` clause and no `on conflict` clause — and every
rendered statement, and hence every statement the pipeline returns, ends
with `returning *`. -/
theorem c8_default_values_and_returning :
    (∀ (ns tbl : String) (n : Nat) (cn : String) (cu : List String),
      mutationQuery ns tbl [] n cn cu =
        "insert into " ++ quoteIdent ns ++ "." ++ quoteIdent tbl ++
          " default values returning *") ∧
    (∀ (ns tbl : String) (cols : List String) (n : Nat) (cn : String)
        (cu : List String),
      ∃ body, mutationQuery ns tbl cols n cn cu = body ++ " returning *") ∧
    (∀ (tbl : PgTable) (cons : List Constraint) (attrs : List Attribute)
        (req : UpsertRequest) (r : String × List PgValue),
      upsertStatement tbl cons attrs req = Except.ok r →
      ∃ body, r.1 = body ++ " returning *") := by
  refine ⟨?_, mutationQuery_returning, ?_⟩
  · intro ns tbl n cn cu
    show (("insert into " ++ quoteIdent ns ++ "." ++ quoteIdent tbl ++ " ") ++
        "default values") ++ " returning *" =
      "insert into " ++ quoteIdent ns ++ "." ++ quoteIdent tbl ++
        " default values returning *"
    rw [String.append_assoc, String.append_assoc]
    rfl
  · intro tbl cons attrs req r h
    unfold upsertStatement at h
    cases hent : columnsByConstraintName attrs cons with
    | none => rw [hent] at h; cases h
    | some entries =>
        rw [hent] at h
        simp only at h
        cases hmc : matchingConstraint entries
            (cons.find? (fun c => c.ctype == ConstraintType.primary))
            req.whereMap (req.inputData.map Prod.fst) with
        | none => rw [hmc] at h; cases h
        | some mc =>
            rw [hmc] at h
            cases hrc : resolveColumns req.whereMap req.inputData
                (req.ignoreArg.getD []) attrs with
            | error e => rw [hrc] at h; cases h
            | ok triple =>
                rw [hrc] at h
                obtain ⟨cs, vs, ig⟩ := triple
                simp only at h
                cases h
                exact mutationQuery_returning _ _ _ _ _ _

/-! ### C9: numeric where/input equality -/

/-- C9: the where/input comparison is JavaScript strict equality on a
single number type: on numbers it compares the numeric value, so a
`where` carrying `0.0` and an `input` carrying `0` for the same column
are equal and raise no `ValueMismatch`; the spec scenario (`weight`,
`serialNumber "123"`) reconciles successfully. -/
theorem c9_numeric_zero_equality :
    (∀ a b : Rat, strictEq (Value.num a) (Value.num b) = (a == b)) ∧
    strictEq (Value.num (0.0 : Rat)) (Value.num (0 : Rat)) = true ∧
    resolveColumns
        (some [("weight", Value.num (0.0 : Rat)), ("serialNumber", Value.str "123")])
        [("weight", Value.num (0 : Rat)), ("serialNumber", Value.str "123"),
          ("model", Value.str "prius")]
        []
        [⟨"weight", 1, "float8", -1, false, false⟩,
          ⟨"serialNumber", 2, "text", -1, false, false⟩,
          ⟨"model", 3, "text", -1, false, false⟩] =
      Except.ok (["weight", "serialNumber", "model"],
        [gql2pg (Value.num (0 : Rat)) "float8" (-1),
          gql2pg (Value.str "123") "text" (-1),
          gql2pg (Value.str "prius") "text" (-1)], []) := by
  have h00 : (0.0 : Rat) = 0 := by norm_num
  refine ⟨fun a b => rfl, ?_, ?_⟩
  · rw [h00]; rfl
  · rw [h00]; rfl

end Upsert

namespace Upsert

/-! ### Structure of the reconciliation loop -/

theorem resolveColumns_ok_cols (w : Option VMap) (inp : VMap) (ig : List String) :
    ∀ (attrs : List Attribute) (r : List String × List PgValue × List String),
      resolveColumns w inp ig attrs = Except.ok r →
      r.1 = (attrs.filter (fun a => (lookupV inp a.name).isSome ||
        (w.bind (fun m => lookupV m a.name)).isSome)).map (fun a => a.name) := by
  intro attrs
  induction attrs with
  | nil =>
      intro r h
      simp only [resolveColumns, Except.ok.injEq] at h
      simp [← h]
  | cons a rest ih =>
      intro r h
      simp only [resolveColumns] at h
      cases hin : lookupV inp a.name with
      | some v =>
          cases hw : w.bind (fun m => lookupV m a.name) with
          | some wv =>
              rw [hin, hw] at h
              simp only at h
              by_cases hseq : strictEq wv v = true
              · rw [if_pos hseq] at h
                obtain ⟨r', hrec, hr⟩ := except_map_ok _ _ _ h
                subst hr
                simp [List.filter_cons, hin, hw, ih r' hrec]
              · rw [if_neg hseq] at h
                cases h
          | none =>
              rw [hin, hw] at h
              simp only at h
              obtain ⟨r', hrec, hr⟩ := except_map_ok _ _ _ h
              subst hr
              simp [List.filter_cons, hin, hw, ih r' hrec]
      | none =>
          cases hw : w.bind (fun m => lookupV m a.name) with
          | some wv =>
              rw [hin, hw] at h
              simp only at h
              obtain ⟨r', hrec, hr⟩ := except_map_ok _ _ _ h
              subst hr
              simp [List.filter_cons, hin, hw, ih r' hrec]
          | none =>
              rw [hin, hw] at h
              simp only at h
              obtain ⟨r', hrec, hr⟩ := except_map_ok _ _ _ h
              subst hr
              simp [List.filter_cons, hin, hw, ih r' hrec]

end Upsert

namespace Upsert

theorem resolveColumns_ok_ignore (w : Option VMap) (inp : VMap) (ig : List String) :
    ∀ (attrs : List Attribute) (r : List String × List PgValue × List String),
      resolveColumns w inp ig attrs = Except.ok r →
      r.2.2 = (attrs.filter (fun a => ignoreExcluded ig a)).map (fun a => a.name) := by
  intro attrs
  induction attrs with
  | nil =>
      intro r h
      simp only [resolveColumns, Except.ok.injEq] at h
      simp [← h]
  | cons a rest ih =>
      intro r h
      simp only [resolveColumns] at h
      cases hin : lookupV inp a.name with
      | some v =>
          cases hw : w.bind (fun m => lookupV m a.name) with
          | some wv =>
              rw [hin, hw] at h
              simp only at h
              by_cases hseq : strictEq wv v = true
              · rw [if_pos hseq] at h
                obtain ⟨r', hrec, hr⟩ := except_map_ok _ _ _ h
                subst hr
                by_cases hig : ignoreExcluded ig a = true
                · simp [List.filter_cons, hig, ih r' hrec]
                · simp [List.filter_cons, hig, ih r' hrec]
              · rw [if_neg hseq] at h
                cases h
          | none =>
              rw [hin, hw] at h
              simp only at h
              obtain ⟨r', hrec, hr⟩ := except_map_ok _ _ _ h
              subst hr
              by_cases hig : ignoreExcluded ig a = true
              · simp [List.filter_cons, hig, ih r' hrec]
              · simp [List.filter_cons, hig, ih r' hrec]
      | none =>
          cases hw : w.bind (fun m => lookupV m a.name) with
          | some wv =>
              rw [hin, hw] at h
              simp only at h
              obtain ⟨r', hrec, hr⟩ := except_map_ok _ _ _ h
              subst hr
              by_cases hig : ignoreExcluded ig a = true
              · simp [List.filter_cons, hig, ih r' hrec]
              · simp [List.filter_cons, hig, ih r' hrec]
          | none =>
              rw [hin, hw] at h
              simp only at h
              obtain ⟨r', hrec, hr⟩ := except_map_ok _ _ _ h
              subst hr
              by_cases hig : ignoreExcluded ig a = true
              · simp [List.filter_cons, hig, ih r' hrec]
              · simp [List.filter_cons, hig, ih r' hrec]

theorem resolveColumns_ignore_indep (w : Option VMap) (inp : VMap)
    (ig1 ig2 : List String) :
    ∀ attrs : List Attribute,
      (resolveColumns w inp ig1 attrs).map (fun r => (r.1, r.2.1)) =
        (resolveColumns w inp ig2 attrs).map (fun r => (r.1, r.2.1)) := by
  intro attrs
  induction attrs with
  | nil => rfl
  | cons a rest ih =>
      simp only [resolveColumns]
      cases hin : lookupV inp a.name with
      | some v =>
          cases hw : w.bind (fun m => lookupV m a.name) with
          | some wv =>
              simp only
              by_cases hseq : strictEq wv v = true
              · rw [if_pos hseq, if_pos hseq]
                cases h1 : resolveColumns w inp ig1 rest with
                | error e =>
                    cases h2 : resolveColumns w inp ig2 rest with
                    | error e2 =>
                        simp [h1, h2, Except.map] at ih ⊢
                        exact ih
                    | ok r2 => simp [h1, h2, Except.map] at ih
                | ok r1 =>
                    cases h2 : resolveColumns w inp ig2 rest with
                    | error e2 => simp [h1, h2, Except.map] at ih
                    | ok r2 =>
                        simp [h1, h2, Except.map] at ih ⊢
                        simp [ih.1, ih.2]
              · rw [if_neg hseq, if_neg hseq]
          | none =>
              simp only
              cases h1 : resolveColumns w inp ig1 rest with
              | error e =>
                  cases h2 : resolveColumns w inp ig2 rest with
                  | error e2 =>
                      simp [h1, h2, Except.map] at ih ⊢
                      exact ih
                  | ok r2 => simp [h1, h2, Except.map] at ih
              | ok r1 =>
                  cases h2 : resolveColumns w inp ig2 rest with
                  | error e2 => simp [h1, h2, Except.map] at ih
                  | ok r2 =>
                      simp [h1, h2, Except.map] at ih ⊢
                      simp [ih.1, ih.2]
      | none =>
          cases hw : w.bind (fun m => lookupV m a.name) with
          | some wv =>
              simp only
              cases h1 : resolveColumns w inp ig1 rest with
              | error e =>
                  cases h2 : resolveColumns w inp ig2 rest with
                  | error e2 =>
                      simp [h1, h2, Except.map] at ih ⊢
                      exact ih
                  | ok r2 => simp [h1, h2, Except.map] at ih
              | ok r1 =>
                  cases h2 : resolveColumns w inp ig2 rest with
                  | error e2 => simp [h1, h2, Except.map] at ih
                  | ok r2 =>
                      simp [h1, h2, Except.map] at ih ⊢
                      simp [ih.1, ih.2]
          | none =>
              simp only
              cases h1 : resolveColumns w inp ig1 rest with
              | error e =>
                  cases h2 : resolveColumns w inp ig2 rest with
                  | error e2 =>
                      simp [h1, h2, Except.map] at ih ⊢
                      exact ih
                  | ok r2 => simp [h1, h2, Except.map] at ih
              | ok r1 =>
                  cases h2 : resolveColumns w inp ig2 rest with
                  | error e2 => simp [h1, h2, Except.map] at ih
                  | ok r2 =>
                      simp [h1, h2, Except.map] at ih ⊢
                      simp [ih.1, ih.2]

end Upsert

namespace Upsert

theorem resolveColumns_extensional (w1 w2 : Option VMap) (i1 i2 : VMap)
    (ig : List String)
    (hw : ∀ k, w1.bind (fun m => lookupV m k) = w2.bind (fun m => lookupV m k))
    (hi : ∀ k, lookupV i1 k = lookupV i2 k) :
    ∀ attrs : List Attribute,
      resolveColumns w1 i1 ig attrs = resolveColumns w2 i2 ig attrs := by
  intro attrs
  induction attrs with
  | nil => rfl
  | cons a rest ih =>
      simp only [resolveColumns]
      rw [hw a.name, hi a.name, ih]

theorem lookupV_perm (m1 m2 : VMap) (hp : m1.Perm m2)
    (hnd : (m1.map Prod.fst).Nodup) :
    ∀ k, lookupV m1 k = lookupV m2 k := by
  intro k
  unfold lookupV
  cases h1 : m1.find? (fun p => p.1 == k) with
  | none =>
      rw [List.find?_eq_none] at h1
      have h2 : m2.find? (fun p => p.1 == k) = none := by
        rw [List.find?_eq_none]
        intro x hx
        exact h1 x (hp.mem_iff.mpr hx)
      rw [h2]
  | some p =>
      have hpm : p ∈ m1 := List.mem_of_find?_eq_some h1
      have hppred := List.find?_some h1
      cases h2 : m2.find? (fun q => q.1 == k) with
      | none =>
          rw [List.find?_eq_none] at h2
          exact absurd hppred (h2 p (hp.mem_iff.mp hpm))
      | some q =>
          have hqm : q ∈ m1 := hp.mem_iff.mpr (List.mem_of_find?_eq_some h2)
          have hqpred := List.find?_some h2
          have hfst : p.1 = q.1 := by
            have h1' : p.1 = k := by simpa using hppred
            have h2' : q.1 = k := by simpa using hqpred
            rw [h1', h2']
          have hpq : p = q :=
            List.inj_on_of_nodup_map hnd hpm hqm hfst
          rw [hpq]

end Upsert

namespace Upsert

/-! ### C2: the update-excluded flag -/

/-- C2: for each attribute of the relation the name enters the
`ignoreUpdate` set exactly when `omit(attr, update)` or
`omit(attr, updateOnConflict)` holds or the attribute's name is in the
caller's ignore set (a disjunction, so an ignore entry can never
re-enable an update the schema excludes), and the caller's ignore set
has no effect on the insert column list or the values (nor on which
error is raised). -/
theorem c2_update_excluded_flag (w : Option VMap) (inp : VMap)
    (igArg : List String) (attrs : List Attribute)
    (hnd : (attrs.map (fun a => a.name)).Nodup) :
    (∀ r, resolveColumns w inp igArg attrs = Except.ok r →
      ∀ a ∈ attrs, r.2.2.contains a.name =
        (a.omitUpdate || a.omitUpdateOnConflict || igArg.contains a.name)) ∧
    (∀ ig2, (resolveColumns w inp igArg attrs).map (fun r => (r.1, r.2.1)) =
      (resolveColumns w inp ig2 attrs).map (fun r => (r.1, r.2.1))) := by
  constructor
  · intro r hok a ha
    have hshape := resolveColumns_ok_ignore w inp igArg attrs r hok
    rw [hshape]
    show _ = ignoreExcluded igArg a
    by_cases hcase : ignoreExcluded igArg a = true
    · rw [hcase]
      have hmem : a.name ∈
          (attrs.filter (fun b => ignoreExcluded igArg b)).map (fun b => b.name) :=
        List.mem_map_of_mem _ (List.mem_filter.mpr ⟨ha, hcase⟩)
      simpa [List.contains] using hmem
    · rw [Bool.not_eq_true] at hcase
      rw [hcase]
      have hnotmem : a.name ∉
          (attrs.filter (fun b => ignoreExcluded igArg b)).map (fun b => b.name) := by
        intro hmem
        obtain ⟨b, hb, hbname⟩ := List.mem_map.mp hmem
        obtain ⟨hbattrs, hbex⟩ := List.mem_filter.mp hb
        have hba : b = a := List.inj_on_of_nodup_map hnd hbattrs ha hbname
        rw [hba, hcase] at hbex
        cases hbex
      simpa [List.contains] using hnotmem
  · intro ig2
    exact resolveColumns_ignore_indep w inp igArg ig2 attrs

/-! ### C7: declared-order insert list, key-order independence -/

/-- C7: a successful reconciliation's insert column list is the relation's
attribute list (declared order) filtered to the attributes present in
`input` or `where`, so column positions follow the declared attribute
order; and the whole reconciliation depends on `where`/`input` only
through key lookup, hence not on the key order of those mappings (in
particular it is invariant under permutation of the input bindings). -/
theorem c7_declared_order (w : Option VMap) (inp : VMap) (ig : List String)
    (attrs : List Attribute) :
    (∀ r, resolveColumns w inp ig attrs = Except.ok r →
      r.1 = (attrs.filter (fun a => (lookupV inp a.name).isSome ||
        (w.bind (fun m => lookupV m a.name)).isSome)).map (fun a => a.name)) ∧
    (∀ (w2 : Option VMap) (i2 : VMap),
      (∀ k, w.bind (fun m => lookupV m k) = w2.bind (fun m => lookupV m k)) →
      (∀ k, lookupV inp k = lookupV i2 k) →
      resolveColumns w inp ig attrs = resolveColumns w2 i2 ig attrs) ∧
    (∀ i2 : VMap, inp.Perm i2 → (inp.map Prod.fst).Nodup →
      resolveColumns w inp ig attrs = resolveColumns w i2 ig attrs) := by
  refine ⟨resolveColumns_ok_cols w inp ig attrs, ?_, ?_⟩
  · intro w2 i2 hw hi
    exact resolveColumns_extensional w w2 inp i2 ig hw hi attrs
  · intro i2 hperm hnd
    exact resolveColumns_extensional w w inp i2 ig (fun k => rfl)
      (lookupV_perm inp i2 hperm hnd) attrs

end Upsert

namespace Upsert

/-! ### C3: ValueMismatch -/

/-- A column whose name is a key of both `where` and `input` and whose two
values are strictly unequal. -/
def MismatchAt (w inp : VMap) (a : Attribute) : Prop :=
  ∃ wv v, lookupV w a.name = some wv ∧ lookupV inp a.name = some v ∧
    strictEq wv v = false

theorem resolveColumns_mismatch (w inp : VMap) (ig : List String) :
    ∀ (pre : List Attribute) (post : List Attribute) (a : Attribute),
      (∀ b ∈ pre, ¬ MismatchAt w inp b) → MismatchAt w inp a →
      resolveColumns (some w) inp ig (pre ++ a :: post) =
        Except.error (UpsertError.valueMismatch (mismatchMessage a.name)) := by
  intro pre
  induction pre with
  | nil =>
      intro post a _ ha
      obtain ⟨wv, v, hwv, hv, hne⟩ := ha
      simp only [List.nil_append, resolveColumns, Option.some_bind]
      rw [hv, hwv]
      simp only
      rw [if_neg (by simp [hne])]
  | cons b pre' ih =>
      intro post a hpre ha
      have hnb : ¬ MismatchAt w inp b := hpre b (List.mem_cons_self b pre')
      have hrest := ih post a (fun y hy => hpre y (List.mem_cons_of_mem b hy)) ha
      simp only [List.cons_append, resolveColumns, Option.some_bind, List.append_eq]
      cases hin : lookupV inp b.name with
      | some v =>
          cases hw : lookupV w b.name with
          | some wv =>
              simp only
              have hseq : strictEq wv v = true := by
                by_contra hc
                exact hnb ⟨wv, v, hw, hin, by simpa using hc⟩
              rw [if_pos hseq, hrest]
              rfl
          | none =>
              simp only
              rw [hrest]
              rfl
      | none =>
          cases hw : lookupV w b.name with
          | some wv =>
              simp only
              rw [hrest]
              rfl
          | none =>
              simp only
              rw [hrest]
              rfl

theorem resolveColumns_no_mismatch_ok (w inp : VMap) (ig : List String) :
    ∀ attrs : List Attribute, (∀ b ∈ attrs, ¬ MismatchAt w inp b) →
      ∃ r, resolveColumns (some w) inp ig attrs = Except.ok r := by
  intro attrs
  induction attrs with
  | nil => exact fun _ => ⟨([], [], []), rfl⟩
  | cons a rest ih =>
      intro hall
      obtain ⟨r', hr'⟩ := ih (fun y hy => hall y (List.mem_cons_of_mem a hy))
      simp only [resolveColumns, Option.some_bind]
      cases hin : lookupV inp a.name with
      | some v =>
          cases hw : lookupV w a.name with
          | some wv =>
              simp only
              have hseq : strictEq wv v = true := by
                by_contra hc
                exact hall a (List.mem_cons_self a rest) ⟨wv, v, hw, hin, by simpa using hc⟩
              rw [if_pos hseq, hr']
              exact ⟨_, rfl⟩
          | none =>
              simp only
              rw [hr']
              exact ⟨_, rfl⟩
      | none =>
          cases hw : lookupV w a.name with
          | some wv =>
              simp only
              rw [hr']
              exact ⟨_, rfl⟩
          | none =>
              simp only
              rw [hr']
              exact ⟨_, rfl⟩

/-- C3: when some attribute's name is a key of both `where` and `input`
with strictly unequal values, reconciliation fails with the exact
diagnostic naming the first such attribute in declared order, the
pipeline builds no statement for that request, and conversely when no
shared column disagrees the reconciliation loop raises no error at
all. -/
theorem c3_value_mismatch_first (w inp : VMap) (ig : List String)
    (pre post : List Attribute) (a : Attribute)
    (hpre : ∀ b ∈ pre, ¬ MismatchAt w inp b) (ha : MismatchAt w inp a) :
    (resolveColumns (some w) inp ig (pre ++ a :: post) =
      Except.error (UpsertError.valueMismatch
        ("Value passed in the input for " ++ a.name ++
          " does not match the where clause value."))) ∧
    (∀ (tbl : PgTable) (cons : List Constraint) (igo : Option (List String))
        (r : String × List PgValue),
      upsertStatement tbl cons (pre ++ a :: post) ⟨some w, inp, igo⟩ ≠
        Except.ok r) ∧
    (∀ attrs2 : List Attribute, (∀ b ∈ attrs2, ¬ MismatchAt w inp b) →
      ∃ r, resolveColumns (some w) inp ig attrs2 = Except.ok r) := by
  refine ⟨resolveColumns_mismatch w inp ig pre post a hpre ha, ?_,
    resolveColumns_no_mismatch_ok w inp ig⟩
  intro tbl cons igo r hok
  unfold upsertStatement at hok
  cases hent : columnsByConstraintName (pre ++ a :: post) cons with
  | none => rw [hent] at hok; cases hok
  | some entries =>
      rw [hent] at hok
      simp only at hok
      cases hmc : matchingConstraint entries
          (cons.find? (fun c => c.ctype == ConstraintType.primary))
          (some w) (inp.map Prod.fst) with
      | none => rw [hmc] at hok; cases hok
      | some mc =>
          rw [hmc] at hok
          rw [resolveColumns_mismatch w inp (igo.getD []) pre post a hpre ha] at hok
          cases hok

end Upsert

namespace Upsert

/-! ### C6: where-only columns are promoted into the insert list -/

/-- C6: every attribute whose name is a key of `where` but not of `input`
contributes the pair `(attr.name, gql2pg whereValue ...)` to the
reconciled insert column/value list, so the built statement's column list
carries every where-only column with its where value. -/
theorem c6_where_only_promoted (w inp : VMap) (ig : List String) :
    ∀ (attrs : List Attribute) (a : Attribute) (wv : Value)
        (r : List String × List PgValue × List String),
      a ∈ attrs → lookupV inp a.name = none → lookupV w a.name = some wv →
      resolveColumns (some w) inp ig attrs = Except.ok r →
      (a.name, gql2pg wv a.typeId a.typeModifier) ∈ r.1.zip r.2.1 := by
  intro attrs
  induction attrs with
  | nil => intro a wv r hmem _ _ _; cases hmem
  | cons b rest ih =>
      intro a wv r hmem hin hwv hok
      simp only [resolveColumns, Option.some_bind] at hok
      rcases List.mem_cons.mp hmem with hab | hmem'
      · subst hab
        rw [hin, hwv] at hok
        simp only at hok
        obtain ⟨r', hrec, hr⟩ := except_map_ok _ _ _ hok
        subst hr
        exact List.mem_cons_self _ _
      · cases hbin : lookupV inp b.name with
        | some v =>
            cases hbw : lookupV w b.name with
            | some bwv =>
                rw [hbin, hbw] at hok
                simp only at hok
                by_cases hseq : strictEq bwv v = true
                · rw [if_pos hseq] at hok
                  obtain ⟨r', hrec, hr⟩ := except_map_ok _ _ _ hok
                  subst hr
                  exact List.mem_cons_of_mem _ (ih a wv r' hmem' hin hwv hrec)
                · rw [if_neg hseq] at hok
                  cases hok
            | none =>
                rw [hbin, hbw] at hok
                simp only at hok
                obtain ⟨r', hrec, hr⟩ := except_map_ok _ _ _ hok
                subst hr
                exact List.mem_cons_of_mem _ (ih a wv r' hmem' hin hwv hrec)
        | none =>
            cases hbw : lookupV w b.name with
            | some bwv =>
                rw [hbin, hbw] at hok
                simp only at hok
                obtain ⟨r', hrec, hr⟩ := except_map_ok _ _ _ hok
                subst hr
                exact List.mem_cons_of_mem _ (ih a wv r' hmem' hin hwv hrec)
            | none =>
                rw [hbin, hbw] at hok
                simp only at hok
                obtain ⟨r', hrec, hr⟩ := except_map_ok _ _ _ hok
                subst hr
                exact ih a wv r' hmem' hin hwv hrec

end Upsert

namespace Upsert

/-! ### C4, C5, C10: conflict-target resolution -/

theorem upsertStatement_no_constraint (tbl : PgTable) (cons : List Constraint)
    (attrs : List Attribute) (req : UpsertRequest)
    (entries : List (String × List Attribute))
    (hent : columnsByConstraintName attrs cons = some entries)
    (hmc : matchingConstraint entries
        (cons.find? (fun c => c.ctype == ConstraintType.primary))
        req.whereMap (req.inputData.map Prod.fst) = none) :
    upsertStatement tbl cons attrs req =
      Except.error (UpsertError.noMatchingConstraint
        (noConstraintMessage (req.inputData.map Prod.fst))) := by
  unfold upsertStatement
  rw [hent]
  simp only
  rw [hmc]

/-- C4: with no `where`, the resolver returns the first constraint (in
catalog-declared order) whose member column names are all among the input
column names; when none is covered it falls back to the entry named after
the primary-key constraint found among the unique constraints; and when
that also fails the pipeline raises the `NoMatchingConstraint` diagnostic
carrying the attempted input column names. -/
theorem c4_no_where_resolution :
    (∀ (entries : List (String × List Attribute)) (ks : List String)
        (pre post : List (String × List Attribute))
        (e : String × List Attribute) (pk : Option Constraint),
      entries = pre ++ e :: post →
      (∀ e' ∈ pre, coveredByInput ks e'.2 = false) →
      coveredByInput ks e.2 = true →
      matchingConstraint entries pk none ks = some e) ∧
    (∀ (entries : List (String × List Attribute)) (ks : List String)
        (p : Constraint) (pre post : List (String × List Attribute))
        (e : String × List Attribute),
      (∀ e' ∈ entries, coveredByInput ks e'.2 = false) →
      entries = pre ++ e :: post → e.1 = p.name →
      (∀ e' ∈ pre, e'.1 ≠ p.name) →
      matchingConstraint entries (some p) none ks = some e) ∧
    (∀ (tbl : PgTable) (cons : List Constraint) (attrs : List Attribute)
        (entries : List (String × List Attribute)) (inp : VMap)
        (igo : Option (List String)),
      columnsByConstraintName attrs cons = some entries →
      (∀ e ∈ entries, coveredByInput (inp.map Prod.fst) e.2 = false) →
      (∀ p, cons.find? (fun c => c.ctype == ConstraintType.primary) = some p →
        ∀ e ∈ entries, e.1 ≠ p.name) →
      upsertStatement tbl cons attrs ⟨none, inp, igo⟩ =
        Except.error (UpsertError.noMatchingConstraint
          ("Unable to determine upsert unique constraint for given upserted columns: " ++
            joinComma (inp.map Prod.fst)))) := by
  refine ⟨?_, ?_, ?_⟩
  · intro entries ks pre post e pk hsplit hpre hcov
    subst hsplit
    unfold matchingConstraint
    rw [find_append_first _ pre e post hpre hcov]
  · intro entries ks p pre post e hnone hsplit hname hpre
    unfold matchingConstraint
    have hfind : entries.find? (fun x => coveredByInput ks x.2) = none :=
      List.find?_eq_none.mpr (fun x hx => by simp [hnone x hx])
    rw [hfind]
    subst hsplit
    have hfind2 : (pre ++ e :: post).find? (fun x => x.1 == p.name) = some e :=
      find_append_first _ pre e post (fun y hy => by simpa using hpre y hy)
        (by simpa using hname)
    simp only
    rw [hfind2]
  · intro tbl cons attrs entries inp igo hent hnone hpk
    have hfindcov :
        entries.find? (fun x => coveredByInput (inp.map Prod.fst) x.2) = none :=
      List.find?_eq_none.mpr (fun x hx => by simp [hnone x hx])
    have hmc : matchingConstraint entries
        (cons.find? (fun c => c.ctype == ConstraintType.primary)) none
        (inp.map Prod.fst) = none := by
      unfold matchingConstraint
      rw [hfindcov]
      cases hp : cons.find? (fun c => c.ctype == ConstraintType.primary) with
      | none => rfl
      | some p =>
          simp only
          exact List.find?_eq_none.mpr (fun x hx => by simpa using hpk p hp x hx)
    exact upsertStatement_no_constraint tbl cons attrs ⟨none, inp, igo⟩ entries
      hent hmc

/-- C5: with a supplied non-empty `where`, the resolver returns the first
constraint (in catalog-declared order) whose member column names are all
keys of `where`; when none is covered the result is `none` for every
primary-key candidate — the primary-key fallback is unreachable in this
branch — and the pipeline raises `NoMatchingConstraint`. -/
theorem c5_where_resolution :
    (∀ (entries : List (String × List Attribute)) (w : VMap)
        (pre post : List (String × List Attribute))
        (e : String × List Attribute) (pk : Option Constraint) (ks : List String),
      w ≠ [] → entries = pre ++ e :: post →
      (∀ e' ∈ pre, coveredByWhere w e'.2 = false) →
      coveredByWhere w e.2 = true →
      matchingConstraint entries pk (some w) ks = some e) ∧
    (∀ (entries : List (String × List Attribute)) (w : VMap)
        (pk : Option Constraint) (ks : List String),
      w ≠ [] → (∀ e ∈ entries, coveredByWhere w e.2 = false) →
      matchingConstraint entries pk (some w) ks = none) ∧
    (∀ (tbl : PgTable) (cons : List Constraint) (attrs : List Attribute)
        (entries : List (String × List Attribute)) (w : VMap) (inp : VMap)
        (igo : Option (List String)),
      columnsByConstraintName attrs cons = some entries → w ≠ [] →
      (∀ e ∈ entries, coveredByWhere w e.2 = false) →
      upsertStatement tbl cons attrs ⟨some w, inp, igo⟩ =
        Except.error (UpsertError.noMatchingConstraint
          ("Unable to determine upsert unique constraint for given upserted columns: " ++
            joinComma (inp.map Prod.fst)))) := by
  refine ⟨?_, ?_, ?_⟩
  · intro entries w pre post e pk ks _ hsplit hpre hcov
    subst hsplit
    unfold matchingConstraint
    simp only
    rw [find_append_first _ pre e post hpre hcov]
  · intro entries w pk ks _ hnone
    unfold matchingConstraint
    simp only
    exact List.find?_eq_none.mpr (fun x hx => by simp [hnone x hx])
  · intro tbl cons attrs entries w inp igo hent hwne hnone
    have hmc : matchingConstraint entries
        (cons.find? (fun c => c.ctype == ConstraintType.primary)) (some w)
        (inp.map Prod.fst) = none := by
      unfold matchingConstraint
      simp only
      exact List.find?_eq_none.mpr (fun x hx => by simp [hnone x hx])
    exact upsertStatement_no_constraint tbl cons attrs ⟨some w, inp, igo⟩ entries
      hent hmc

/-- C10: when every resolved constraint has at least one member column, a
supplied-but-empty `where` object (truthy in JS) takes the where branch:
no constraint is covered, the input-column scan and the primary-key
fallback are never consulted (the result is `none` for every candidate
primary key and every input key set), and the pipeline fails with
`NoMatchingConstraint`. -/
theorem c10_empty_where_always_fails (tbl : PgTable) (cons : List Constraint)
    (attrs : List Attribute) (entries : List (String × List Attribute))
    (inp : VMap) (igo : Option (List String))
    (hent : columnsByConstraintName attrs cons = some entries)
    (hne : ∀ e ∈ entries, e.2 ≠ []) :
    (∀ (pk : Option Constraint) (ks : List String),
      matchingConstraint entries pk (some []) ks = none) ∧
    upsertStatement tbl cons attrs ⟨some [], inp, igo⟩ =
      Except.error (UpsertError.noMatchingConstraint
        ("Unable to determine upsert unique constraint for given upserted columns: " ++
          joinComma (inp.map Prod.fst))) := by
  have hcov : ∀ e ∈ entries, coveredByWhere [] e.2 = false := by
    intro e he
    cases hcols : e.2 with
    | nil => exact absurd hcols (hne e he)
    | cons c cs =>
        simp [coveredByWhere, hasKeyV, lookupV]
  have hmcgen : ∀ (pk : Option Constraint) (ks : List String),
      matchingConstraint entries pk (some []) ks = none := by
    intro pk ks
    unfold matchingConstraint
    simp only
    exact List.find?_eq_none.mpr (fun x hx => by simp [hcov x hx])
  refine ⟨hmcgen, ?_⟩
  exact upsertStatement_no_constraint tbl cons attrs ⟨some [], inp, igo⟩ entries
    hent (hmcgen _ _)

end Upsert

namespace Upsert

/-! ### Witnesses -/

theorem c2_witness :
    (([⟨"a", 1, "text", -1, true, false⟩, ⟨"b", 2, "text", -1, false, false⟩] :
        List Attribute).map (fun a => a.name)).Nodup ∧
    (["a", "b"].contains "a" = (true || false || (["b"].contains "a"))) ∧
    ((resolveColumns none [("a", Value.num 1), ("b", Value.num 2)] ["b"]
        [⟨"a", 1, "text", -1, true, false⟩, ⟨"b", 2, "text", -1, false, false⟩]).map
          (fun r => (r.1, r.2.1)) =
      (resolveColumns none [("a", Value.num 1), ("b", Value.num 2)] []
        [⟨"a", 1, "text", -1, true, false⟩, ⟨"b", 2, "text", -1, false, false⟩]).map
          (fun r => (r.1, r.2.1))) := by
  have hnd : (([⟨"a", 1, "text", -1, true, false⟩,
      ⟨"b", 2, "text", -1, false, false⟩] :
        List Attribute).map (fun a => a.name)).Nodup := by decide
  have h := c2_update_excluded_flag none
    [("a", Value.num 1), ("b", Value.num 2)] ["b"]
    [⟨"a", 1, "text", -1, true, false⟩, ⟨"b", 2, "text", -1, false, false⟩] hnd
  refine ⟨hnd, ?_, h.2 []⟩
  exact h.1 (["a", "b"],
      [gql2pg (Value.num 1) "text" (-1), gql2pg (Value.num 2) "text" (-1)],
      ["a", "b"]) rfl ⟨"a", 1, "text", -1, true, false⟩ (by decide)

theorem c3_witness :
    MismatchAt [("a", Value.num 1)] [("a", Value.num 2)]
      ⟨"a", 1, "text", -1, false, false⟩ ∧
    resolveColumns (some [("a", Value.num 1)]) [("a", Value.num 2)] []
        [⟨"a", 1, "text", -1, false, false⟩] =
      Except.error (UpsertError.valueMismatch
        ("Value passed in the input for " ++ "a" ++
          " does not match the where clause value.")) := by
  have ha : MismatchAt [("a", Value.num 1)] [("a", Value.num 2)]
      ⟨"a", 1, "text", -1, false, false⟩ :=
    ⟨Value.num 1, Value.num 2, rfl, rfl, by decide⟩
  exact ⟨ha, (c3_value_mismatch_first [("a", Value.num 1)] [("a", Value.num 2)]
    [] [] [] ⟨"a", 1, "text", -1, false, false⟩ (by simp) ha).1⟩

theorem c4_witness :
    coveredByInput ["id"] [⟨"id", 1, "int4", -1, false, false⟩] = true ∧
    matchingConstraint [("pk", [⟨"id", 1, "int4", -1, false, false⟩])] none none
        ["id"] = some ("pk", [⟨"id", 1, "int4", -1, false, false⟩]) := by
  refine ⟨by decide, ?_⟩
  exact c4_no_where_resolution.1 [("pk", [⟨"id", 1, "int4", -1, false, false⟩])]
    ["id"] [] [] ("pk", [⟨"id", 1, "int4", -1, false, false⟩]) none rfl
    (by simp) (by decide)

theorem c5_witness :
    ([("id", Value.num 1)] : VMap) ≠ [] ∧
    coveredByWhere [("id", Value.num 1)] [⟨"id", 1, "int4", -1, false, false⟩] =
      true ∧
    matchingConstraint [("pk2", [⟨"id", 1, "int4", -1, false, false⟩])] none
        (some [("id", Value.num 1)]) [] =
      some ("pk2", [⟨"id", 1, "int4", -1, false, false⟩]) := by
  refine ⟨by simp, by decide, ?_⟩
  exact c5_where_resolution.1 [("pk2", [⟨"id", 1, "int4", -1, false, false⟩])]
    [("id", Value.num 1)] [] [] ("pk2", [⟨"id", 1, "int4", -1, false, false⟩])
    none [] (by simp) rfl (by simp) (by decide)

theorem c6_witness :
    lookupV [] "serialNumber" = none ∧
    lookupV [("serialNumber", Value.str "123")] "serialNumber" =
      some (Value.str "123") ∧
    ("serialNumber", gql2pg (Value.str "123") "text" (-1)) ∈
      (["serialNumber"].zip [gql2pg (Value.str "123") "text" (-1)]) := by
  refine ⟨rfl, rfl, ?_⟩
  exact c6_where_only_promoted [("serialNumber", Value.str "123")] [] []
    [⟨"serialNumber", 1, "text", -1, false, false⟩]
    ⟨"serialNumber", 1, "text", -1, false, false⟩ (Value.str "123")
    (["serialNumber"], [gql2pg (Value.str "123") "text" (-1)], [])
    (by decide) rfl rfl rfl

theorem c7_witness :
    resolveColumns none [("b", Value.num 2)] []
        [⟨"a", 1, "text", -1, false, false⟩, ⟨"b", 2, "text", -1, false, false⟩] =
      Except.ok (["b"], [gql2pg (Value.num 2) "text" (-1)], []) ∧
    (["b"], [gql2pg (Value.num 2) "text" (-1)], ([] : List String)).1 =
      (([⟨"a", 1, "text", -1, false, false⟩, ⟨"b", 2, "text", -1, false, false⟩] :
          List Attribute).filter (fun a =>
            (lookupV [("b", Value.num 2)] a.name).isSome ||
            ((none : Option VMap).bind (fun m => lookupV m a.name)).isSome)).map
        (fun a => a.name) := by
  have hok : resolveColumns none [("b", Value.num 2)] []
      [⟨"a", 1, "text", -1, false, false⟩, ⟨"b", 2, "text", -1, false, false⟩] =
      Except.ok (["b"], [gql2pg (Value.num 2) "text" (-1)], []) := rfl
  exact ⟨hok, (c7_declared_order none [("b", Value.num 2)] []
    [⟨"a", 1, "text", -1, false, false⟩,
      ⟨"b", 2, "text", -1, false, false⟩]).1 _ hok⟩

theorem c8_witness :
    mutationQuery "public" "t" [] 0 "c" [] =
      "insert into " ++ quoteIdent "public" ++ "." ++ quoteIdent "t" ++
        " default values returning *" :=
  c8_default_values_and_returning.1 "public" "t" 0 "c" []

theorem c10_witness :
    columnsByConstraintName [⟨"id", 1, "int4", -1, false, false⟩]
        [⟨"t_pk", ConstraintType.primary, [1]⟩] =
      some [("t_pk", [⟨"id", 1, "int4", -1, false, false⟩])] ∧
    upsertStatement ⟨"public", "t"⟩ [⟨"t_pk", ConstraintType.primary, [1]⟩]
        [⟨"id", 1, "int4", -1, false, false⟩]
        ⟨some [], [("id", Value.num 1)], none⟩ =
      Except.error (UpsertError.noMatchingConstraint
        ("Unable to determine upsert unique constraint for given upserted columns: " ++
          joinComma ([("id", Value.num 1)].map Prod.fst))) := by
  have hent : columnsByConstraintName [⟨"id", 1, "int4", -1, false, false⟩]
      [⟨"t_pk", ConstraintType.primary, [1]⟩] =
      some [("t_pk", [⟨"id", 1, "int4", -1, false, false⟩])] := rfl
  exact ⟨hent, (c10_empty_where_always_fails ⟨"public", "t"⟩
    [⟨"t_pk", ConstraintType.primary, [1]⟩] [⟨"id", 1, "int4", -1, false, false⟩]
    [("t_pk", [⟨"id", 1, "int4", -1, false, false⟩])] [("id", Value.num 1)] none
    hent (by decide)).2⟩

end Upsert
